import Mathlib

/-!
Shallow embedding of exporter/gather.go

The Go file `src/exporter/gather.go` is embedded function by function.

* Go strings are Lean strings; `strings.Index` / slicing are done on characters.  The only
  slice taken by the code is at the position of `?`, an ASCII character, so the prefix is the
  same whether positions count bytes or characters.
* `[]byte` is `List UInt8`.
* The network, the JSON decoder, `strconv.ParseFloat` and the go-github client are outside the
  file; they are parameters (`Env`).  Network calls thread an explicit world state `W`, so two
  calls with the same arguments may answer differently.
* A Go function either returns, panics, or is still looping when the fuel given to the
  pagination loop runs out (`Run`).
* Logging calls (`log.Infof`, `log.Errorf`) and `defer resp.Body.Close()` have no effect on
  any returned value and are left out.
-/

namespace Gather

/-! ## Outcomes of a Go call -/

/-- Outcome of running a Go function: a normal return, a runtime panic, or fuel exhausted
while a `for` loop was still running. -/
inductive Run (α : Type) where
  | ret (a : α)
  | panic (msg : String)
  | timeout
  deriving DecidableEq

namespace Run

/-- Sequencing: a panic or an exhausted loop aborts whatever follows. -/
def bind {α β : Type} : Run α → (α → Run β) → Run β
  | ret a, f => f a
  | panic m, _ => panic m
  | timeout, _ => timeout

/-- True exactly on a normal return. -/
def returns {α : Type} : Run α → Bool
  | ret _ => true
  | _ => false

end Run

/-- Go `error` values met in this file. `errorString` is what `fmt.Errorf` builds from a plain
format string, `numError` is `*strconv.NumError` (fields `Func`, `Num`, `Err`), `external` is
an error produced by the network layer or a decoder. -/
inductive GoError where
  | errorString (s : String)
  | numError (func num err : String)
  | external (descr : String)
  deriving DecidableEq

/-! ## Standard-library string functions used by the file -/

/-- Position of the first occurrence of `sub` in `s` counted from `i`, or `-1`. -/
def indexFrom (sub : List Char) : List Char → Nat → Int
  | [], i => if sub = [] then (i : Int) else -1
  | c :: cs, i => if sub.isPrefixOf (c :: cs) then (i : Int) else indexFrom sub cs (i + 1)

/-- Go `strings.Index(s, substr)`. -/
def stringsIndex (s substr : String) : Int := indexFrom substr.data s.data 0

/-- Go `strings.Contains(s, substr)`, which is `Index(s, substr) >= 0`. -/
def stringsContains (s substr : String) : Bool := decide (0 ≤ stringsIndex s substr)

/-- Go slice expression `s[:i]`: panics unless `0 ≤ i ≤ len(s)`. -/
def sliceTo (s : String) (i : Int) : Run String :=
  if i < 0 ∨ (s.data.length : Int) < i then
    Run.panic "slice bounds out of range"
  else
    Run.ret (String.mk (s.data.take i.toNat))

/-! ## isArray -/

/-- Go `isArray`: the first byte that is not a space (32), tab (9), carriage return (13) or
line feed (10) decides; `[` is byte 91. -/
def isArray : List UInt8 → Bool
  | [] => false
  | c :: rest =>
    if c = 32 ∨ c = 9 ∨ c = 13 ∨ c = 10 then isArray rest
    else c == 91

/-- The whitespace test of `isArray`, as a Boolean predicate on one byte. -/
def isBlank (c : UInt8) : Bool := decide (c = 32 ∨ c = 9 ∨ c = 13 ∨ c = 10)

/-! ## Data model -/

/-- Modelled from the spec: the `Response` type declaration is missing from the sources; the
file reads its `url` and `body` fields only. The elements of a `[]*Response` are taken to be
non-nil pointers. -/
structure Response where
  url : String
  body : List UInt8
  deriving DecidableEq

/-- Modelled from the spec: the `Datum` type declaration is missing from the sources. It has
pass-through top-level fields, `Releases` and `PullRequests`. -/
structure Datum (Fields Release PR : Type) where
  fields : Fields
  Releases : List Release
  PullRequests : List PR
  deriving DecidableEq

/-- Go `new(Datum)`: every field has its zero value. -/
def Datum.new {Fields Release PR : Type} [Inhabited Fields] : Datum Fields Release PR :=
  { fields := default, Releases := [], PullRequests := [] }

/-- Modelled from the spec: the `RateLimits` type declaration is missing from the sources. -/
structure RateLimits (F : Type) where
  Limit : F
  Remaining : F
  Reset : F
  deriving DecidableEq

/-- Go `RateLimits{}`, the zero value. -/
def RateLimits.zero {F : Type} [Zero F] : RateLimits F :=
  { Limit := 0, Remaining := 0, Reset := 0 }

/-- The part of `net/url.URL` that `getRates` touches. -/
structure URL where
  Scheme : String
  Host : String
  Path : String
  deriving DecidableEq

/-- Modelled from the spec: the `Exporter` type declaration is missing from the sources; the
file calls its accessors `TargetURLs()`, `APIToken()` and `APIURL()`. -/
structure Exporter where
  TargetURLs : List String
  APIToken : String
  APIURL : URL
  deriving DecidableEq

/-- Go `GitHubManager`; the client is determined by the token it was built with. -/
structure GitHubManager where
  Client : String
  Owner : String
  Repo : String
  deriving DecidableEq

/-- The fields of `github.PullRequestListOptions` that `GetPRs` sets. `Page = 0` is the unset
value, which asks for the first page. -/
structure PullRequestListOptions where
  State : String
  Page : Nat
  deriving DecidableEq

/-- The fields of `http.Response` that `getRates` reads; `Header` is `resp.Header.Get`. -/
structure HTTPResponse where
  StatusCode : Int
  Header : String → String

/-- What lies outside `gather.go` for `gatherData`: the fan-out fetch `asyncHTTPGets`, the
go-github call `PullRequests.List` (answering with the items and `resp.NextPage`), and
`json.Unmarshal` at the three types it is used at. Each decoder answers with the value left in
its destination and the error it reports. A `*Datum` is `Option (Datum ..)`, `none` being the
nil pointer. -/
structure Env (W Fields Release PR : Type) where
  asyncHTTPGets : List String → String → W → (List Response × Option GoError) × W
  pullRequestsList : GitHubManager → PullRequestListOptions → W →
    Except GoError (List PR × Nat) × W
  unmarshalData : List UInt8 → List (Option (Datum Fields Release PR)) × Option GoError
  unmarshalDatum : List UInt8 → Datum Fields Release PR →
    Option (Datum Fields Release PR) × Option GoError
  unmarshalReleases : List UInt8 → List Release → List Release × Option GoError

/-- What lies outside `gather.go` for `getRates`: the single GET `getHTTPResponse`,
`strconv.ParseFloat(_, 64)` (on failure the `Err` of its `*NumError`), `path.Join` and
`URL.String`. -/
structure RateEnv (W F : Type) where
  getHTTPResponse : String → String → W → Except GoError HTTPResponse × W
  parseFloat64 : String → Except String F
  pathJoin : String → String → String
  urlString : URL → String

/-- Go `strconv.ParseFloat(s, 64)`: its errors have concrete type `*NumError` with
`Func = "ParseFloat"` and `Num = s`. -/
def strconvParseFloat {W F : Type} (env : RateEnv W F) (s : String) : Except GoError F :=
  match env.parseFloat64 s with
  | .ok v => .ok v
  | .error k => .error (GoError.numError "ParseFloat" s k)

/-! ## GetPRs -/

section Code

variable {W Fields Release PR : Type}

/-- The `for` loop of `GetPRs`, one iteration per unit of fuel. -/
def GetPRs.loop (env : Env W Fields Release PR) (gm : GitHubManager) :
    Nat → PullRequestListOptions → List PR → W → Run ((List PR × Option GoError) × W)
  | 0, _, _, _ => Run.timeout
  | fuel + 1, opts, allPRs, w =>
    match env.pullRequestsList gm opts w with
    | (.error err, w1) => Run.ret (([], some err), w1)
    | (.ok (prs, nextPage), w1) =>
      if nextPage = 0 then Run.ret ((allPRs ++ prs, none), w1)
      else GetPRs.loop env gm fuel { opts with Page := nextPage } (allPRs ++ prs) w1

/-- Go `GitHubManager.GetPRs`. -/
def GetPRs (env : Env W Fields Release PR) (gm : GitHubManager) (fuel : Nat) (w : W) :
    Run ((List PR × Option GoError) × W) :=
  GetPRs.loop env gm fuel { State := "all", Page := 0 } [] w

/-- Go `NewGitHubManager`. -/
def NewGitHubManager (owner repo token : String) : GitHubManager :=
  { Client := token, Owner := owner, Repo := repo }

/-- Go `getPRs`: the error of `GetPRs` is logged and dropped. -/
def getPRs (env : Env W Fields Release PR) (e : Exporter) (_url : String) (fuel : Nat) (w : W) :
    Run (List PR × W) :=
  (GetPRs env (NewGitHubManager "sky-uk" "gtvd-azman2-aws" e.APIToken) fuel w).bind
    fun r => Run.ret (r.1.1, r.2)

/-! ## getReleases -/

/-- Lines 152 to 154 of `getReleases`: the URL it is about to request. -/
def releasesURL (url : String) : Run String :=
  (sliceTo url (stringsIndex url "?")).bind fun baseURL => Run.ret (baseURL ++ "/releases")

/-- Go `getReleases`; `data` is the value behind the pointer on entry, the result the value
behind it on return. The fetch error is logged and dropped, then element 0 of the response
list is read. -/
def getReleases (env : Env W Fields Release PR) (e : Exporter) (url : String)
    (data : List Release) (w : W) : Run (List Release × W) :=
  (releasesURL url).bind fun u =>
    let r := env.asyncHTTPGets [u] e.APIToken w
    match r.1.1 with
    | [] => Run.panic "index out of range [0] with length 0"
    | r0 :: _ => Run.ret ((env.unmarshalReleases r0.body data).1, r.2)

/-! ## gatherData -/

/-- The variables `data`, `prs` of `gatherData` and the world, between two loop iterations. -/
structure GatherState (W Fields Release PR : Type) where
  data : List (Option (Datum Fields Release PR))
  prs : List PR
  world : W
  deriving DecidableEq

/-- What `gatherData` hands back, and the world it leaves. -/
structure GatherResult (W Fields Release PR : Type) where
  data : List (Option (Datum Fields Release PR))
  prs : List PR
  err : Option GoError
  world : W
  deriving DecidableEq

/-- One iteration of the `for _, response := range responses` loop of `gatherData`. -/
def gatherStep [Inhabited Fields] (env : Env W Fields Release PR) (e : Exporter) (fuel : Nat)
    (st : GatherState W Fields Release PR) (response : Response) :
    Run (GatherState W Fields Release PR) :=
  if isArray response.body then
    Run.ret { st with data := st.data ++ (env.unmarshalData response.body).1 }
  else
    let d : Datum Fields Release PR := Datum.new
    (if stringsContains response.url "/repos/" then
        (getReleases env e response.url d.Releases st.world).bind
          fun r => Run.ret ({ d with Releases := r.1 }, r.2)
      else Run.ret (d, st.world)).bind fun dw =>
    (if stringsContains response.url "/repos/" then
        getPRs env e response.url fuel dw.2
      else Run.ret (st.prs, dw.2)).bind fun pw =>
    Run.ret { data := st.data ++ [(env.unmarshalDatum response.body dw.1).1],
              prs := pw.1, world := pw.2 }

/-- The `range` loop of `gatherData`. -/
def gatherLoop [Inhabited Fields] (env : Env W Fields Release PR) (e : Exporter) (fuel : Nat) :
    List Response → GatherState W Fields Release PR → Run (GatherState W Fields Release PR)
  | [], st => Run.ret st
  | response :: rest, st =>
    (gatherStep env e fuel st response).bind fun st1 => gatherLoop env e fuel rest st1

/-- Go `Exporter.gatherData`. `fuel` bounds each pagination walk of `GetPRs`. -/
def gatherData [Inhabited Fields] (env : Env W Fields Release PR) (e : Exporter) (fuel : Nat)
    (w : W) : Run (GatherResult W Fields Release PR) :=
  let r := env.asyncHTTPGets e.TargetURLs e.APIToken w
  match r.1.2 with
  | some err => Run.ret { data := [], prs := [], err := some err, world := r.2 }
  | none =>
    (gatherLoop env e fuel r.1.1 { data := [], prs := [], world := r.2 }).bind fun st =>
      Run.ret { data := st.data, prs := st.prs, err := none, world := st.world }

end Code

/-! ## getRates -/

/-- Lines 111 and 112 of `getRates`: a copy of the API URL whose path is joined with
`rate_limit`, rendered by `u.String()`. -/
def rateLimitURL {W F : Type} (env : RateEnv W F) (e : Exporter) : String :=
  let u : URL := e.APIURL
  env.urlString { u with Path := env.pathJoin u.Path "rate_limit" }

/-- Go `Exporter.getRates`; the first component is the `*RateLimits` returned (`none` would be
a nil pointer), the second the error. -/
def getRates {W F : Type} [Zero F] (env : RateEnv W F) (e : Exporter) (w : W) :
    (Option (RateLimits F) × Option GoError) × W :=
  let r := env.getHTTPResponse (rateLimitURL env e) e.APIToken w
  match r.1 with
  | .error err => ((some RateLimits.zero, some err), r.2)
  | .ok resp =>
    if resp.StatusCode = 404 then
      ((some RateLimits.zero,
        some (GoError.errorString "Rate Limiting not enabled in GitHub API")), r.2)
    else
      match strconvParseFloat env (resp.Header "X-RateLimit-Limit") with
      | .error err => ((some RateLimits.zero, some err), r.2)
      | .ok limit =>
        match strconvParseFloat env (resp.Header "X-RateLimit-Remaining") with
        | .error err => ((some RateLimits.zero, some err), r.2)
        | .ok rem =>
          match strconvParseFloat env (resp.Header "X-RateLimit-Reset") with
          | .error err => ((some RateLimits.zero, some err), r.2)
          | .ok reset =>
            ((some { Limit := limit, Remaining := rem, Reset := reset }, none), r.2)

/-- The condition under which `gatherData` makes the two secondary fetches for a response: its
body is not array-shaped and its URL contains `/repos/`. -/
def isRepoObject (r : Response) : Bool :=
  !isArray r.body && stringsContains r.url "/repos/"

/-- What one primary response contributes to the Datum sequence: the decoded array elements
when its body is array-shaped, and exactly one Datum otherwise. -/
def Contributes {W Fields Release PR : Type} (env : Env W Fields Release PR) (r : Response)
    (part : List (Option (Datum Fields Release PR))) : Prop :=
  if isArray r.body = true then part = (env.unmarshalData r.body).1 else part.length = 1

/-- The number of Datum entries one primary response accounts for: the length of the decoded
array for an array-shaped body, 1 otherwise. -/
def contribution {W Fields Release PR : Type} (env : Env W Fields Release PR) (r : Response) :
    Nat :=
  if isArray r.body = true then (env.unmarshalData r.body).1.length else 1

/-! ## Page chains -/

/-- A finite chain of pages served without error to requests with state filter `all`: the
request for `page` in world `w` answers with the first page of the list; every page but the
last reports a non-zero `NextPage`, which selects the page after it, and the last reports
`NextPage = 0` and leaves the world `wEnd`. Nothing is assumed about requests with another
state filter. -/
def ServesChain {W Fields Release PR : Type} (env : Env W Fields Release PR)
    (gm : GitHubManager) : Nat → W → List (List PR × Nat) → W → Prop
  | _, _, [], _ => False
  | page, w, [p], wEnd =>
    env.pullRequestsList gm { State := "all", Page := page } w = (.ok (p.1, p.2), wEnd) ∧ p.2 = 0
  | page, w, p :: q :: rest, wEnd =>
    p.2 ≠ 0 ∧ ∃ w1,
      env.pullRequestsList gm { State := "all", Page := page } w = (.ok (p.1, p.2), w1) ∧
      ServesChain env gm p.2 w1 (q :: rest) wEnd

/-! ## Concrete environments

Small instances of the parameters, used to run the code on explicit inputs. The world is a
counter of the `PullRequests.List` calls made so far; items are numbers, releases and the
pass-through fields are strings. -/

/-- A toy `json.Unmarshal` into `[]*Datum`: one zero `Datum` per `{` (byte 123) of a body that
ends in `]` (byte 93); any other body is an error and leaves the slice empty. -/
def toyUnmarshalData (body : List UInt8) :
    List (Option (Datum String String Nat)) × Option GoError :=
  if body.getLast? = some 93 then
    ((body.filter (fun c => c == 123)).map (fun _ => some Datum.new), none)
  else ([], some (GoError.external "unexpected end of JSON input"))

/-- A toy `json.Unmarshal` into `*Datum`: a body that is exactly `{}` decodes (setting the
pass-through fields), the body `null` sets the pointer to nil, any other body is an error and
leaves the destination as it was. -/
def toyUnmarshalDatum (body : List UInt8) (d : Datum String String Nat) :
    Option (Datum String String Nat) × Option GoError :=
  if body = [123, 125] then (some { d with fields := "decoded" }, none)
  else if body = [110, 117, 108, 108] then (none, none)
  else (some d, some (GoError.external "invalid character"))

/-- A toy `json.Unmarshal` into `*[]Release`: one release per `{` of a body that ends in `]`;
any other body is an error and leaves the destination as it was. -/
def toyUnmarshalReleases (body : List UInt8) (data : List String) :
    List String × Option GoError :=
  if body.getLast? = some 93 then
    ((body.filter (fun c => c == 123)).map (fun _ => "release"), none)
  else (data, some (GoError.external "unexpected end of JSON input"))

/-- The exporter configuration used in the examples. -/
def exporter0 : Exporter :=
  { TargetURLs := ["https://api.github.com/repos/o/r?per_page=100"],
    APIToken := "t",
    APIURL := { Scheme := "https", Host := "api.github.com", Path := "/" } }

/-- A fan-out fetch that answers a request for the configured target with the given primary
responses, and any other request (the releases sub-fetch) with `releases`. -/
def scriptedGets (primary : List Response) (releases : List Response × Option GoError)
    (urls : List String) (_token : String) (w : Nat) :
    (List Response × Option GoError) × Nat :=
  if urls = exporter0.TargetURLs then ((primary, none), w) else (releases, w)

/-- A pull-request server with three pages of 10, 10 and 5 items, reached at page numbers 0
(unset), 2 and 3; it refuses every state filter other than `all`. -/
def threePages (_gm : GitHubManager) (opts : PullRequestListOptions) (w : Nat) :
    Except GoError (List Nat × Nat) × Nat :=
  if opts.State ≠ "all" then (.error (GoError.external "state filter"), w + 1)
  else if opts.Page = 0 then (.ok (List.range' 1 10, 2), w + 1)
  else if opts.Page = 2 then (.ok (List.range' 11 10, 3), w + 1)
  else if opts.Page = 3 then (.ok (List.range' 21 5, 0), w + 1)
  else (.error (GoError.external "no such page"), w + 1)

/-- A pull-request server whose first call answers with one page of two items and whose later
calls all fail. -/
def firstCallOnly (_gm : GitHubManager) (_opts : PullRequestListOptions) (w : Nat) :
    Except GoError (List Nat × Nat) × Nat :=
  if w = 0 then (.ok ([7, 8], 0), w + 1)
  else (.error (GoError.external "connection reset"), w + 1)

/-- A pull-request server that always announces a further page. -/
def endlessPages (_gm : GitHubManager) (_opts : PullRequestListOptions) (w : Nat) :
    Except GoError (List Nat × Nat) × Nat :=
  (.ok ([1], 1), w + 1)

/-- An environment assembled from a fan-out fetch and a pull-request server, with the toy
decoders. -/
def toyEnv
    (gets : List String → String → Nat → (List Response × Option GoError) × Nat)
    (list : GitHubManager → PullRequestListOptions → Nat →
      Except GoError (List Nat × Nat) × Nat) : Env Nat String String Nat :=
  { asyncHTTPGets := gets,
    pullRequestsList := list,
    unmarshalData := toyUnmarshalData,
    unmarshalDatum := toyUnmarshalDatum,
    unmarshalReleases := toyUnmarshalReleases }

/-- A response for a repository target whose body is `{}`. -/
def repoObject : Response :=
  { url := "https://api.github.com/repos/o/r?per_page=100", body := [123, 125] }

/-- A response for a repository target given without a query string, body `{}`. -/
def repoObjectNoQuery : Response :=
  { url := "https://api.github.com/repos/o/r", body := [123, 125] }

/-- A response for a listing target whose body is `[{},{}]`. -/
def orgArray : Response :=
  { url := "https://api.github.com/orgs/o/repos?per_page=100",
    body := [91, 123, 125, 44, 123, 125, 93] }

/-- A response for a user target whose body, the single byte `{`, is malformed JSON. -/
def brokenObject : Response :=
  { url := "https://api.github.com/users/o?per_page=100", body := [123] }

/-- A response for a listing target whose body, the two bytes `[{`, is malformed JSON. -/
def brokenArray : Response :=
  { url := "https://api.github.com/orgs/o/repos?per_page=100", body := [91, 123] }

/-- The answer of a releases sub-fetch that succeeded with the body `[{}]`. -/
def releasesOk : List Response × Option GoError :=
  ([{ url := "https://api.github.com/repos/o/r/releases", body := [91, 123, 125, 93] }], none)

/-- The answer of a releases sub-fetch that failed: no response list, and an error. -/
def releasesFailed : List Response × Option GoError :=
  ([], some (GoError.external "connection refused"))

/-- A toy `strconv.ParseFloat`: it knows three numerals. -/
def toyParseFloat (s : String) : Except String Int :=
  if s = "5000" then .ok 5000
  else if s = "4999" then .ok 4999
  else if s = "1700000000" then .ok 1700000000
  else .error "invalid syntax"

/-- A rate-limit endpoint that answers every GET with the given status and header values. -/
def toyRateEnv (status : Int) (limit remaining reset : String) : RateEnv Nat Int :=
  { getHTTPResponse := fun _ _ w =>
      (.ok { StatusCode := status,
             Header := fun k =>
               if k = "X-RateLimit-Limit" then limit
               else if k = "X-RateLimit-Remaining" then remaining
               else if k = "X-RateLimit-Reset" then reset
               else "" }, w + 1),
    parseFloat64 := toyParseFloat,
    pathJoin := fun a b => a ++ b,
    urlString := fun u => u.Scheme ++ "://" ++ u.Host ++ u.Path }

/-- A rate-limit endpoint that cannot be reached. -/
def unreachableRateEnv : RateEnv Nat Int :=
  { toyRateEnv 200 "" "" "" with
    getHTTPResponse := fun _ _ w => (.error (GoError.external "no route to host"), w + 1) }

end Gather

namespace Gather

/-! ## Facts about isArray -/

theorem isBlank_iff (c : UInt8) : isBlank c = true ↔ (c = 32 ∨ c = 9 ∨ c = 13 ∨ c = 10) := by
  simp [isBlank]

theorem isArray_cons_blank (c : UInt8) (rest : List UInt8) (h : isBlank c = true) :
    isArray (c :: rest) = isArray rest := by
  have h' := (isBlank_iff c).1 h
  simp [isArray, h']

theorem isArray_cons_other (c : UInt8) (rest : List UInt8) (h : isBlank c = false) :
    isArray (c :: rest) = (c == 91) := by
  have h' : ¬ (c = 32 ∨ c = 9 ∨ c = 13 ∨ c = 10) := by
    intro hc
    have := (isBlank_iff c).2 hc
    simp [h] at this
  simp [isArray, h']

theorem isArray_skip (pre rest : List UInt8) (h : ∀ x ∈ pre, isBlank x = true) :
    isArray (pre ++ rest) = isArray rest := by
  induction pre with
  | nil => rfl
  | cons x xs ih =>
    have hx : isBlank x = true := h x (List.mem_cons_self x xs)
    have hxs : ∀ y ∈ xs, isBlank y = true := fun y hy => h y (List.mem_cons_of_mem x hy)
    rw [List.cons_append, isArray_cons_blank x _ hx]
    exact ih hxs

theorem isArray_split (body : List UInt8) (h : isArray body = true) :
    ∃ pre post, body = pre ++ 91 :: post ∧ ∀ x ∈ pre, isBlank x = true := by
  induction body with
  | nil => simp [isArray] at h
  | cons c rest ih =>
    cases hb : isBlank c with
    | true =>
      rw [isArray_cons_blank c rest hb] at h
      obtain ⟨pre, post, hEq, hpre⟩ := ih h
      refine ⟨c :: pre, post, by simp [hEq], ?_⟩
      intro x hx
      rcases List.mem_cons.1 hx with rfl | hx
      · exact hb
      · exact hpre x hx
    | false =>
      rw [isArray_cons_other c rest hb] at h
      have hc : c = 91 := by simpa using h
      exact ⟨[], rest, by simp [hc], by simp⟩

/-- C1: `isArray body` is true exactly when the body holds a byte that is not a space, tab,
carriage return or line feed and the first such byte is `[` (91). It is false on the empty
body, on a body of whitespace only, and on every body whose first non-whitespace byte is not
`[`. -/
theorem isArray_first_significant_byte (body : List UInt8) :
    (isArray body = true ↔
      ∃ pre post, body = pre ++ 91 :: post ∧
        ∀ x ∈ pre, (x = 32 ∨ x = 9 ∨ x = 13 ∨ x = 10)) ∧
    isArray [] = false ∧
    ((∀ x ∈ body, (x = 32 ∨ x = 9 ∨ x = 13 ∨ x = 10)) → isArray body = false) ∧
    (∀ pre c post, body = pre ++ c :: post →
      (∀ x ∈ pre, (x = 32 ∨ x = 9 ∨ x = 13 ∨ x = 10)) →
      ¬ (c = 32 ∨ c = 9 ∨ c = 13 ∨ c = 10) → c ≠ 91 → isArray body = false) := by
  refine ⟨⟨?_, ?_⟩, rfl, ?_, ?_⟩
  · intro h
    obtain ⟨pre, post, hEq, hpre⟩ := isArray_split body h
    exact ⟨pre, post, hEq, fun x hx => (isBlank_iff x).1 (hpre x hx)⟩
  · rintro ⟨pre, post, rfl, hpre⟩
    rw [isArray_skip pre _ (fun x hx => (isBlank_iff x).2 (hpre x hx))]
    rfl
  · intro hall
    have := isArray_skip body [] (fun x hx => (isBlank_iff x).2 (hall x hx))
    simpa [isArray] using this
  · rintro pre c post rfl hpre hc hne
    rw [isArray_skip pre _ (fun x hx => (isBlank_iff x).2 (hpre x hx))]
    have hb : isBlank c = false := by
      cases hcb : isBlank c with
      | false => rfl
      | true => exact absurd ((isBlank_iff c).1 hcb) hc
    rw [isArray_cons_other c post hb]
    simpa using hne

end Gather

namespace Gather

/-! ## Run -/

@[simp]
theorem Run.bind_ret {α β : Type} (a : α) (f : α → Run β) :
    (Run.ret a).bind f = f a := rfl

@[simp]
theorem Run.bind_panic {α β : Type} (m : String) (f : α → Run β) :
    (Run.panic m : Run α).bind f = Run.panic m := rfl

@[simp]
theorem Run.bind_timeout {α β : Type} (f : α → Run β) :
    (Run.timeout : Run α).bind f = Run.timeout := rfl

theorem Run.returns_iff {α : Type} (r : Run α) : r.returns = true ↔ ∃ a, r = Run.ret a := by
  cases r <;> simp [Run.returns]

theorem Run.bind_eq_ret {α β : Type} (r : Run α) (f : α → Run β) (b : β)
    (h : r.bind f = Run.ret b) : ∃ a, r = Run.ret a ∧ f a = Run.ret b := by
  cases r with
  | ret a => exact ⟨a, rfl, h⟩
  | panic m => simp at h
  | timeout => simp at h

/-! ## strings.Index at the query delimiter -/

theorem take_length_takeWhile {α : Type} (p : α → Bool) (l : List α) :
    l.take (l.takeWhile p).length = l.takeWhile p := by
  induction l with
  | nil => rfl
  | cons a l ih =>
    cases h : p a with
    | true => simp [List.takeWhile_cons, h, ih]
    | false => simp [List.takeWhile_cons, h]

theorem indexFrom_question (cs : List Char) (i : Nat) :
    indexFrom ['?'] cs i =
      if '?' ∈ cs then ((i + (cs.takeWhile (fun c => c != '?')).length : Nat) : Int)
      else -1 := by
  induction cs generalizing i with
  | nil => simp [indexFrom]
  | cons c cs ih =>
    by_cases hc : c = '?'
    · subst hc
      simp [indexFrom, List.isPrefixOf]
    · have hc' : ¬ '?' = c := fun h => hc h.symm
      have hpre : List.isPrefixOf ['?'] (c :: cs) = false := by
        simp [List.isPrefixOf, hc']
      have hmem : ('?' ∈ c :: cs) ↔ '?' ∈ cs := by
        simp [hc']
      have htw : (c :: cs).takeWhile (fun c => c != '?') =
          c :: cs.takeWhile (fun c => c != '?') := by
        simp [List.takeWhile_cons, hc]
      rw [indexFrom, hpre, htw, ih]
      by_cases hm : '?' ∈ cs
      · have hm' : '?' ∈ c :: cs := hmem.2 hm
        simp only [hm, hm', if_true, List.length_cons]
        push_cast
        omega
      · have hm' : '?' ∉ c :: cs := fun h => hm (hmem.1 h)
        simp [hm, hm']

theorem stringsIndex_question (url : String) :
    stringsIndex url "?" =
      if '?' ∈ url.data then (((url.data.takeWhile (fun c => c != '?')).length : Nat) : Int)
      else -1 := by
  have h := indexFrom_question url.data 0
  simpa [stringsIndex] using h

theorem stringsContains_question (url : String) :
    stringsContains url "?" = true ↔ '?' ∈ url.data := by
  rw [stringsContains, stringsIndex_question]
  by_cases h : '?' ∈ url.data
  · simp [h]
  · simp [h]

/-- On a URL that holds a `?`, the URL requested by `getReleases` is the part before the
first `?` followed by `/releases`. -/
theorem releasesURL_of_query (url : String) (h : '?' ∈ url.data) :
    releasesURL url =
      Run.ret (String.mk (url.data.takeWhile (fun c => c != '?')) ++ "/releases") := by
  have hle : (url.data.takeWhile (fun c => c != '?')).length ≤ url.data.length :=
    (List.takeWhile_sublist _).length_le
  have hlt : ¬ ((url.data.length : Int) <
      ((url.data.takeWhile (fun c => c != '?')).length : Int)) := by
    omega
  have hneg : ¬ (((url.data.takeWhile (fun c => c != '?')).length : Int) < 0) := by
    omega
  simp only [releasesURL, stringsIndex_question, h, if_true, sliceTo, hlt, hneg, or_self,
    if_false, Int.toNat_ofNat, take_length_takeWhile, Run.bind_ret]

/-- On a URL that holds no `?`, `strings.Index` answers `-1` and the slice `url[:i]` panics. -/
theorem releasesURL_no_query (url : String) (h : '?' ∉ url.data) :
    releasesURL url = Run.panic "slice bounds out of range" := by
  simp [releasesURL, stringsIndex_question, h, sliceTo]

/-! ## GetPRs -/

section Proofs

variable {W Fields Release PR : Type}

theorem GetPRs.loop_chain (env : Env W Fields Release PR) (gm : GitHubManager) (wEnd : W) :
    ∀ (pages : List (List PR × Nat)) (page : Nat) (w : W) (acc : List PR) (fuel : Nat),
      ServesChain env gm page w pages wEnd → pages.length ≤ fuel →
      GetPRs.loop env gm fuel { State := "all", Page := page } acc w =
        Run.ret ((acc ++ (pages.map Prod.fst).flatten, none), wEnd) := by
  intro pages
  induction pages with
  | nil => intro page w acc fuel h _; exact absurd h (by simp [ServesChain])
  | cons p rest ih =>
    intro page w acc fuel h hfuel
    cases fuel with
    | zero => simp at hfuel
    | succ fuel =>
      cases rest with
      | nil =>
        obtain ⟨hsrv, hnext⟩ := h
        simp [GetPRs.loop, hsrv, hnext]
      | cons q rest =>
        obtain ⟨hnext, w1, hsrv, hrest⟩ := h
        have hlen : (q :: rest).length ≤ fuel := by
          simp only [List.length_cons] at hfuel ⊢
          omega
        have := ih p.2 w1 (acc ++ p.1) fuel hrest hlen
        simp [GetPRs.loop, hsrv, hnext, this]

/-- C6: for every finite chain of pages served without error to requests with state filter
`all`, each page but the last announcing the next one and the last announcing none, `GetPRs`
returns (with any fuel of at least one unit per page) a nil error and exactly the items of
the pages concatenated in page order, so the length is the sum of the page lengths. Only the
answers to `all` requests are constrained, so every request made uses that filter. -/
theorem GetPRs_concatenates_pages (env : Env W Fields Release PR) (gm : GitHubManager)
    (w wEnd : W) (pages : List (List PR × Nat)) (fuel : Nat)
    (hchain : ServesChain env gm 0 w pages wEnd) (hfuel : pages.length ≤ fuel) :
    GetPRs env gm fuel w = Run.ret (((pages.map Prod.fst).flatten, none), wEnd) ∧
    ((pages.map Prod.fst).flatten).length = (pages.map (fun p => p.1.length)).sum := by
  refine ⟨?_, ?_⟩
  · have := GetPRs.loop_chain env gm wEnd pages 0 w [] fuel hchain hfuel
    simpa [GetPRs] using this
  · simp [List.length_flatten, List.map_map, Function.comp_def]

/-- Witness for C6: three pages of 10, 10 and 5 items give 25 items in page order. -/
theorem GetPRs_concatenates_pages_witness :
    GetPRs (toyEnv (scriptedGets [] releasesOk) threePages) (NewGitHubManager "o" "r" "t") 3 0
      = Run.ret ((List.range' 1 25, none), 3) ∧
    (List.range' 1 25).length = 10 + 10 + 5 :=
  have h := GetPRs_concatenates_pages (toyEnv (scriptedGets [] releasesOk) threePages)
    (NewGitHubManager "o" "r" "t") 0 3
    [(List.range' 1 10, 2), (List.range' 11 10, 3), (List.range' 21 5, 0)] 3
    ⟨by decide, 1, rfl, by decide, 2, rfl, rfl, rfl⟩ (by decide)
  ⟨h.1, by decide⟩

/-! ## getReleases -/

theorem getReleases_no_query (env : Env W Fields Release PR) (e : Exporter) (url : String)
    (data : List Release) (w : W) (h : '?' ∉ url.data) :
    getReleases env e url data w = Run.panic "slice bounds out of range" := by
  simp [getReleases, releasesURL_no_query url h]

theorem getReleases_of_query (env : Env W Fields Release PR) (e : Exporter) (url : String)
    (data : List Release) (w : W) (h : '?' ∈ url.data) :
    getReleases env e url data w =
      match (env.asyncHTTPGets
          [String.mk (url.data.takeWhile (fun c => c != '?')) ++ "/releases"]
          e.APIToken w).1.1 with
      | [] => Run.panic "index out of range [0] with length 0"
      | r0 :: _ =>
        Run.ret ((env.unmarshalReleases r0.body data).1,
          (env.asyncHTTPGets
            [String.mk (url.data.takeWhile (fun c => c != '?')) ++ "/releases"]
            e.APIToken w).2) := by
  simp [getReleases, releasesURL_of_query url h]

theorem getReleases_empty_list (env : Env W Fields Release PR) (e : Exporter) (url : String)
    (data : List Release) (w : W)
    (h : ∀ u, (env.asyncHTTPGets [u] e.APIToken w).1.1 = []) :
    (getReleases env e url data w).returns = false := by
  by_cases hq : '?' ∈ url.data
  · rw [getReleases_of_query env e url data w hq, h]
    rfl
  · rw [getReleases_no_query env e url data w hq]
    rfl

theorem getReleases_returns (env : Env W Fields Release PR) (e : Exporter) (url : String)
    (data : List Release) (w : W) (hq : '?' ∈ url.data)
    (h : ∀ u w1, (env.asyncHTTPGets [u] e.APIToken w1).1.1 ≠ []) :
    ∃ r, getReleases env e url data w = Run.ret r := by
  rw [getReleases_of_query env e url data w hq]
  have hne := h (String.mk (url.data.takeWhile (fun c => c != '?')) ++ "/releases") w
  cases hl : (env.asyncHTTPGets
      [String.mk (url.data.takeWhile (fun c => c != '?')) ++ "/releases"] e.APIToken w).1.1 with
  | nil => exact absurd hl hne
  | cons r0 rest => exact ⟨_, rfl⟩

/-! ## getPRs -/

theorem getPRs_url_irrelevant (env : Env W Fields Release PR) (e : Exporter) (u1 u2 : String)
    (fuel : Nat) (w : W) : getPRs env e u1 fuel w = getPRs env e u2 fuel w := rfl

theorem GetPRs.loop_error_nil (env : Env W Fields Release PR) (gm : GitHubManager) :
    ∀ (fuel : Nat) (opts : PullRequestListOptions) (acc : List PR) (w w1 : W) (p : List PR)
      (err : GoError),
      GetPRs.loop env gm fuel opts acc w = Run.ret ((p, some err), w1) → p = [] := by
  intro fuel
  induction fuel with
  | zero => intro opts acc w w1 p err h; simp [GetPRs.loop] at h
  | succ fuel ih =>
    intro opts acc w w1 p err h
    rw [GetPRs.loop] at h
    cases hs : env.pullRequestsList gm opts w with
    | mk res w2 =>
      rw [hs] at h
      cases res with
      | error er =>
        simp only [Run.ret.injEq, Prod.mk.injEq] at h
        exact h.1.1.symm
      | ok v =>
        obtain ⟨prs, nextPage⟩ := v
        by_cases hn : nextPage = 0
        · simp [hn] at h
        · simp only [hn, if_false] at h
          exact ih _ _ _ _ _ _ h

theorem getPRs_returns (env : Env W Fields Release PR) (e : Exporter) (url : String)
    (fuel : Nat) (w : W)
    (h : (GetPRs env (NewGitHubManager "sky-uk" "gtvd-azman2-aws" e.APIToken) fuel w).returns
      = true) :
    ∃ r, getPRs env e url fuel w = Run.ret r := by
  obtain ⟨a, ha⟩ := (Run.returns_iff _).1 h
  exact ⟨(a.1.1, a.2), by simp [getPRs, ha]⟩

/-! ## One iteration of the loop of gatherData -/

theorem gatherStep_array [Inhabited Fields] (env : Env W Fields Release PR) (e : Exporter)
    (fuel : Nat) (st : GatherState W Fields Release PR) (r : Response)
    (h : isArray r.body = true) :
    gatherStep env e fuel st r =
      Run.ret { st with data := st.data ++ (env.unmarshalData r.body).1 } := by
  simp [gatherStep, h]

theorem gatherStep_plain [Inhabited Fields] (env : Env W Fields Release PR) (e : Exporter)
    (fuel : Nat) (st : GatherState W Fields Release PR) (r : Response)
    (h : isArray r.body = false) (hr : stringsContains r.url "/repos/" = false) :
    gatherStep env e fuel st r =
      Run.ret { data := st.data ++ [(env.unmarshalDatum r.body Datum.new).1],
                prs := st.prs, world := st.world } := by
  simp [gatherStep, h, hr]

theorem gatherStep_repo [Inhabited Fields] (env : Env W Fields Release PR) (e : Exporter)
    (fuel : Nat) (st : GatherState W Fields Release PR) (r : Response)
    (h : isArray r.body = false) (hr : stringsContains r.url "/repos/" = true) :
    gatherStep env e fuel st r =
      (getReleases env e r.url [] st.world).bind fun rel =>
        (getPRs env e r.url fuel rel.2).bind fun pw =>
          Run.ret { data := st.data ++
                      [(env.unmarshalDatum r.body
                        { fields := default, Releases := rel.1, PullRequests := [] }).1],
                    prs := pw.1, world := pw.2 } := by
  have hE : (Datum.new : Datum Fields Release PR).Releases = [] := rfl
  simp only [gatherStep, h, hr, if_true, Bool.false_eq_true, if_false, hE]
  cases getReleases env e r.url [] st.world with
  | ret a => rfl
  | panic m => rfl
  | timeout => rfl

theorem isRepoObject_false_iff (r : Response) :
    isRepoObject r = false ↔ (isArray r.body = true ∨ stringsContains r.url "/repos/" = false) := by
  cases h1 : isArray r.body <;> cases h2 : stringsContains r.url "/repos/" <;>
    simp [isRepoObject, h1, h2]

theorem isRepoObject_true_iff (r : Response) :
    isRepoObject r = true ↔ (isArray r.body = false ∧ stringsContains r.url "/repos/" = true) := by
  cases h1 : isArray r.body <;> cases h2 : stringsContains r.url "/repos/" <;>
    simp [isRepoObject, h1, h2]

/-! ## The loop of gatherData -/

theorem gatherStep_data [Inhabited Fields] (env : Env W Fields Release PR) (e : Exporter)
    (fuel : Nat) (st st1 : GatherState W Fields Release PR) (r : Response)
    (h : gatherStep env e fuel st r = Run.ret st1) :
    ∃ part, Contributes env r part ∧ st1.data = st.data ++ part := by
  cases ha : isArray r.body with
  | true =>
    rw [gatherStep_array env e fuel st r ha] at h
    injection h with h
    exact ⟨(env.unmarshalData r.body).1, by simp [Contributes, ha], by rw [← h]⟩
  | false =>
    cases hr : stringsContains r.url "/repos/" with
    | false =>
      rw [gatherStep_plain env e fuel st r ha hr] at h
      injection h with h
      exact ⟨[(env.unmarshalDatum r.body Datum.new).1], by simp [Contributes, ha],
        by rw [← h]⟩
    | true =>
      rw [gatherStep_repo env e fuel st r ha hr] at h
      obtain ⟨rel, _, h⟩ := Run.bind_eq_ret _ _ _ h
      obtain ⟨pw, _, h⟩ := Run.bind_eq_ret _ _ _ h
      injection h with h
      exact ⟨[(env.unmarshalDatum r.body
          { fields := default, Releases := rel.1, PullRequests := [] }).1],
        by simp [Contributes, ha], by rw [← h]⟩

theorem gatherLoop_data [Inhabited Fields] (env : Env W Fields Release PR) (e : Exporter)
    (fuel : Nat) :
    ∀ (resps : List Response) (st st1 : GatherState W Fields Release PR),
      gatherLoop env e fuel resps st = Run.ret st1 →
      ∃ parts, List.Forall₂ (Contributes env) resps parts ∧
        st1.data = st.data ++ parts.flatten := by
  intro resps
  induction resps with
  | nil =>
    intro st st1 h
    simp only [gatherLoop] at h
    injection h with h
    exact ⟨[], List.Forall₂.nil, by simp [h]⟩
  | cons r rest ih =>
    intro st st1 h
    simp only [gatherLoop] at h
    obtain ⟨st2, h2, h⟩ := Run.bind_eq_ret _ _ _ h
    obtain ⟨part, hpart, hd⟩ := gatherStep_data env e fuel st st2 r h2
    obtain ⟨parts, hparts, hd1⟩ := ih st2 st1 h
    exact ⟨part :: parts, List.Forall₂.cons hpart hparts, by
      simp [hd1, hd, List.append_assoc]⟩

theorem contributes_length (env : Env W Fields Release PR) :
    ∀ (resps : List Response) (parts : List (List (Option (Datum Fields Release PR)))),
      List.Forall₂ (Contributes env) resps parts →
      parts.flatten.length = (resps.map (contribution env)).sum := by
  intro resps parts h
  induction h with
  | nil => rfl
  | @cons r part rest parts hp _ ih =>
    have hlen : part.length = contribution env r := by
      unfold Contributes at hp
      unfold contribution
      by_cases ha : isArray r.body = true
      · rw [if_pos ha] at hp ⊢
        rw [hp]
      · rw [if_neg ha] at hp ⊢
        exact hp
    simp [ih, hlen]

theorem gatherLoop_append [Inhabited Fields] (env : Env W Fields Release PR) (e : Exporter)
    (fuel : Nat) :
    ∀ (pre post : List Response) (st : GatherState W Fields Release PR),
      gatherLoop env e fuel (pre ++ post) st =
        (gatherLoop env e fuel pre st).bind fun st1 => gatherLoop env e fuel post st1 := by
  intro pre
  induction pre with
  | nil => intro post st; rfl
  | cons r rest ih =>
    intro post st
    simp only [List.cons_append, gatherLoop]
    cases gatherStep env e fuel st r with
    | ret st1 => simp [ih]
    | panic m => rfl
    | timeout => rfl

/-- Responses that trigger no secondary fetch are processed without touching the world or the
pull-request sequence, and the loop over them always returns. -/
theorem gatherLoop_no_repo [Inhabited Fields] (env : Env W Fields Release PR) (e : Exporter)
    (fuel : Nat) :
    ∀ (resps : List Response) (st : GatherState W Fields Release PR),
      (∀ r ∈ resps, isRepoObject r = false) →
      ∃ st1, gatherLoop env e fuel resps st = Run.ret st1 ∧
        st1.prs = st.prs ∧ st1.world = st.world := by
  intro resps
  induction resps with
  | nil => intro st _; exact ⟨st, rfl, rfl, rfl⟩
  | cons r rest ih =>
    intro st h
    have hr := h r (List.mem_cons_self r rest)
    have hrest : ∀ x ∈ rest, isRepoObject x = false :=
      fun x hx => h x (List.mem_cons_of_mem r hx)
    simp only [gatherLoop]
    cases ha : isArray r.body with
    | true =>
      rw [gatherStep_array env e fuel st r ha]
      obtain ⟨st1, h1, h2, h3⟩ := ih { st with data := st.data ++ (env.unmarshalData r.body).1 }
        hrest
      exact ⟨st1, by simpa using h1, h2, h3⟩
    | false =>
      have hc : stringsContains r.url "/repos/" = false := by
        rcases (isRepoObject_false_iff r).1 hr with h1 | h1
        · rw [ha] at h1; cases h1
        · exact h1
      rw [gatherStep_plain env e fuel st r ha hc]
      obtain ⟨st1, h1, h2, h3⟩ := ih
        { data := st.data ++ [(env.unmarshalDatum r.body Datum.new).1],
          prs := st.prs, world := st.world } hrest
      exact ⟨st1, by simpa using h1, h2, h3⟩

/-- The loop returns when every repository object has a query string in its URL, every
single-URL fetch hands back at least one response, and every pagination walk ends within the
fuel. -/
theorem gatherLoop_returns [Inhabited Fields] (env : Env W Fields Release PR) (e : Exporter)
    (fuel : Nat)
    (hrel : ∀ u w1, (env.asyncHTTPGets [u] e.APIToken w1).1.1 ≠ [])
    (hprs : ∀ w1,
      (GetPRs env (NewGitHubManager "sky-uk" "gtvd-azman2-aws" e.APIToken) fuel w1).returns
        = true) :
    ∀ (resps : List Response) (st : GatherState W Fields Release PR),
      (∀ r ∈ resps, isRepoObject r = true → stringsContains r.url "?" = true) →
      ∃ st1, gatherLoop env e fuel resps st = Run.ret st1 := by
  intro resps
  induction resps with
  | nil => intro st _; exact ⟨st, rfl⟩
  | cons r rest ih =>
    intro st h
    have hrest : ∀ x ∈ rest, isRepoObject x = true → stringsContains x.url "?" = true :=
      fun x hx => h x (List.mem_cons_of_mem r hx)
    simp only [gatherLoop]
    cases ha : isArray r.body with
    | true =>
      rw [gatherStep_array env e fuel st r ha]
      simpa using ih _ hrest
    | false =>
      cases hc : stringsContains r.url "/repos/" with
      | false =>
        rw [gatherStep_plain env e fuel st r ha hc]
        simpa using ih _ hrest
      | true =>
        have hq : '?' ∈ r.url.data :=
          (stringsContains_question r.url).1
            (h r (List.mem_cons_self r rest) ((isRepoObject_true_iff r).2 ⟨ha, hc⟩))
        obtain ⟨rel, hrel1⟩ := getReleases_returns env e r.url [] st.world hq hrel
        obtain ⟨pw, hpw⟩ := getPRs_returns env e r.url fuel rel.2 (hprs rel.2)
        rw [gatherStep_repo env e fuel st r ha hc, hrel1]
        simp only [Run.bind_ret, hpw]
        exact ih _ hrest

theorem gatherData_of_ok [Inhabited Fields] (env : Env W Fields Release PR) (e : Exporter)
    (fuel : Nat) (w : W)
    (hok : (env.asyncHTTPGets e.TargetURLs e.APIToken w).1.2 = none) :
    gatherData env e fuel w =
      (gatherLoop env e fuel (env.asyncHTTPGets e.TargetURLs e.APIToken w).1.1
        { data := [], prs := [],
          world := (env.asyncHTTPGets e.TargetURLs e.APIToken w).2 }).bind fun st =>
        Run.ret { data := st.data, prs := st.prs, err := none, world := st.world } := by
  simp [gatherData, hok]

/-! ## gatherData: the primary fetch fails -/

/-- C3: if the primary fan-out fetch reports an error, `gatherData` returns (at any fuel)
that same error with an empty Datum sequence and an empty PullRequest sequence, and the world
is the one the primary fetch left. The outcome is the same under every decoder, every
pull-request server and every fuel: nothing is classified, decoded or fetched after the
primary fetch, and no partial result is returned. -/
theorem gatherData_primary_error [Inhabited Fields] (env : Env W Fields Release PR)
    (e : Exporter) (fuel : Nat) (w : W) (err : GoError)
    (herr : (env.asyncHTTPGets e.TargetURLs e.APIToken w).1.2 = some err) :
    gatherData env e fuel w =
      Run.ret { data := [], prs := [], err := some err,
                world := (env.asyncHTTPGets e.TargetURLs e.APIToken w).2 } ∧
    ∀ (env2 : Env W Fields Release PR) (fuel2 : Nat),
      env2.asyncHTTPGets = env.asyncHTTPGets →
      gatherData env2 e fuel2 w = gatherData env e fuel w := by
  refine ⟨by simp [gatherData, herr], ?_⟩
  intro env2 fuel2 h
  simp [gatherData, h, herr]

/-- Witness for C3: a fan-out fetch that fails although it hands back a partial response
list; the partial list is dropped, and with a pull-request server that never stops and no
fuel at all the call still returns. -/
theorem gatherData_primary_error_witness :
    gatherData
      (toyEnv (fun _ _ w => (([repoObject], some (GoError.external "timeout")), w)) endlessPages)
      exporter0 0 0 =
      Run.ret { data := [], prs := [], err := some (GoError.external "timeout"), world := 0 } :=
  (gatherData_primary_error
    (toyEnv (fun _ _ w => (([repoObject], some (GoError.external "timeout")), w)) endlessPages)
    exporter0 0 0 (GoError.external "timeout") rfl).1

end Proofs

/-! ## gatherData: the primary fetch succeeds -/

section Gathering

variable {W Fields Release PR : Type}

/-- C2 (amended): after a primary fetch without error, whenever `gatherData` returns it
returns a nil error and the in-order concatenation, over the responses, of the decoded array
elements for an array-shaped body and of exactly one Datum otherwise, so the length is the
sum of the contributions. It does return when no response triggers a secondary fetch, and
also when every repository object has a `?` in its URL, every single-URL fetch hands back at
least one response and every pagination walk ends within the fuel. -/
theorem gatherData_concatenates [Inhabited Fields] (env : Env W Fields Release PR)
    (e : Exporter) (fuel : Nat) (w : W)
    (hok : (env.asyncHTTPGets e.TargetURLs e.APIToken w).1.2 = none) :
    (∀ out, gatherData env e fuel w = Run.ret out →
      out.err = none ∧
      ∃ parts,
        List.Forall₂ (Contributes env) (env.asyncHTTPGets e.TargetURLs e.APIToken w).1.1 parts ∧
        out.data = parts.flatten ∧
        out.data.length =
          ((env.asyncHTTPGets e.TargetURLs e.APIToken w).1.1.map (contribution env)).sum) ∧
    ((∀ r ∈ (env.asyncHTTPGets e.TargetURLs e.APIToken w).1.1, isRepoObject r = false) →
      ∃ out, gatherData env e fuel w = Run.ret out) ∧
    ((∀ r ∈ (env.asyncHTTPGets e.TargetURLs e.APIToken w).1.1,
        isRepoObject r = true → stringsContains r.url "?" = true) →
      (∀ u w1, (env.asyncHTTPGets [u] e.APIToken w1).1.1 ≠ []) →
      (∀ w1,
        (GetPRs env (NewGitHubManager "sky-uk" "gtvd-azman2-aws" e.APIToken) fuel w1).returns
          = true) →
      ∃ out, gatherData env e fuel w = Run.ret out) := by
  rw [gatherData_of_ok env e fuel w hok]
  refine ⟨?_, ?_, ?_⟩
  · intro out h
    obtain ⟨st, hst, h⟩ := Run.bind_eq_ret _ _ _ h
    injection h with h
    obtain ⟨parts, hparts, hd⟩ := gatherLoop_data env e fuel _ _ _ hst
    have hdata : out.data = parts.flatten := by
      rw [← h]
      simpa using hd
    refine ⟨by rw [← h], parts, hparts, hdata, ?_⟩
    rw [hdata]
    exact contributes_length env _ _ hparts
  · intro hno
    obtain ⟨st, hst, _⟩ := gatherLoop_no_repo env e fuel _
      { data := [], prs := [], world := (env.asyncHTTPGets e.TargetURLs e.APIToken w).2 } hno
    exact ⟨_, by rw [hst]; rfl⟩
  · intro hq hrel hprs
    obtain ⟨st, hst⟩ := gatherLoop_returns env e fuel hrel hprs _
      { data := [], prs := [], world := (env.asyncHTTPGets e.TargetURLs e.APIToken w).2 } hq
    exact ⟨_, by rw [hst]; rfl⟩

theorem GetPRs_firstCallOnly_returns (gets : List String → String → Nat →
      (List Response × Option GoError) × Nat) (gm : GitHubManager) (fuel w : Nat) :
    (GetPRs (toyEnv gets firstCallOnly) gm (fuel + 1) w).returns = true := by
  cases w with
  | zero => rfl
  | succ w => rfl

/-- Witness for C2: a repository object, an array of two and another repository object. The
conditions for returning hold, and the result has 1 + 2 + 1 entries and a nil error. -/
theorem gatherData_concatenates_witness :
    ∃ out,
      gatherData (toyEnv (scriptedGets [repoObject, orgArray, repoObject] releasesOk)
        firstCallOnly) exporter0 5 0 = Run.ret out ∧
      out.err = none ∧ out.data.length = 1 + 2 + 1 :=
  have h := gatherData_concatenates
    (toyEnv (scriptedGets [repoObject, orgArray, repoObject] releasesOk) firstCallOnly)
    exporter0 5 0 rfl
  have hret := h.2.2 (by decide)
    (by
      intro u w1
      by_cases hu : [u] = exporter0.TargetURLs
      · simp [toyEnv, scriptedGets, hu]
      · simp [toyEnv, scriptedGets, hu, releasesOk])
    (fun w1 => GetPRs_firstCallOnly_returns _ _ 4 w1)
  Exists.elim hret fun out hout =>
    ⟨out, hout, (h.1 out hout).1, by
      obtain ⟨_, _, _, _, hlen⟩ := h.1 out hout
      rw [hlen]
      decide⟩

theorem GetPRs.loop_endless (gets : List String → String → Nat →
      (List Response × Option GoError) × Nat) (gm : GitHubManager) :
    ∀ (fuel : Nat) (opts : PullRequestListOptions) (acc : List Nat) (w : Nat),
      GetPRs.loop (toyEnv gets endlessPages) gm fuel opts acc w = Run.timeout := by
  intro fuel
  induction fuel with
  | zero => intro opts acc w; rfl
  | succ fuel ih =>
    intro opts acc w
    simp [GetPRs.loop, toyEnv, endlessPages]
    exact ih _ _ _

/-- C2 (counterexample): the primary fetch succeeds with one repository object, but the
pull-request server announces a further page for ever; `gatherData` never returns, whatever
the fuel. -/
theorem gatherData_endless_pagination_never_returns :
    ((toyEnv (scriptedGets [repoObject] releasesOk) endlessPages).asyncHTTPGets
        exporter0.TargetURLs exporter0.APIToken 0).1.2 = none ∧
    ¬ ∃ fuel out,
      gatherData (toyEnv (scriptedGets [repoObject] releasesOk) endlessPages) exporter0 fuel 0
        = Run.ret out := by
  refine ⟨rfl, ?_⟩
  rintro ⟨fuel, out, h⟩
  rw [gatherData_of_ok _ _ _ _ rfl] at h
  have hresp : ((toyEnv (scriptedGets [repoObject] releasesOk) endlessPages).asyncHTTPGets
      exporter0.TargetURLs exporter0.APIToken 0).1.1 = [repoObject] := rfl
  rw [hresp] at h
  simp only [gatherLoop] at h
  rw [gatherStep_repo _ _ _ _ _ (by decide) (by decide)] at h
  have hrel : getReleases (toyEnv (scriptedGets [repoObject] releasesOk) endlessPages)
      exporter0 repoObject.url [] 0 = Run.ret (["release"], 0) := rfl
  have hprs : ∀ w, getPRs (toyEnv (scriptedGets [repoObject] releasesOk) endlessPages)
      exporter0 repoObject.url fuel w = Run.timeout := by
    intro w
    simp [getPRs, GetPRs, GetPRs.loop_endless]
  simp only [hrel, Run.bind_ret, hprs, Run.bind_timeout] at h
  cases h

/-! ## gatherData: the secondary fetches -/

/-- C4 (evaluation at the failing input): the primary fetch succeeds with a repository object
followed by an array, and the releases sub-fetch fails the way a transport failure does, with
an error and no response list. `getReleases` reads element 0 of the empty list and panics, so
`gatherData` panics too, whatever the fuel: no Datum and no nil error are returned. -/
theorem gatherData_panics_when_releases_fetch_fails (fuel : Nat) :
    ((toyEnv (scriptedGets [repoObject, orgArray] releasesFailed) firstCallOnly).asyncHTTPGets
        ["https://api.github.com/repos/o/r/releases"] exporter0.APIToken 0).1 =
      ([], some (GoError.external "connection refused")) ∧
    getReleases (toyEnv (scriptedGets [repoObject, orgArray] releasesFailed) firstCallOnly)
        exporter0 repoObject.url [] 0 = Run.panic "index out of range [0] with length 0" ∧
    gatherData (toyEnv (scriptedGets [repoObject, orgArray] releasesFailed) firstCallOnly)
        exporter0 fuel 0 = Run.panic "index out of range [0] with length 0" :=
  ⟨rfl, rfl, rfl⟩

/-- C5 (evaluation at the failing input): on the URL `https://api.github.com/repos/o/r`, which
holds no `?`, `strings.Index` answers `-1`, the slice `url[:i]` panics, and `getReleases`
requests nothing, under every environment; a `gatherData` cycle whose primary response is an
object with that URL panics with it. -/
theorem getReleases_panics_without_query (env : Env W Fields Release PR) (e : Exporter)
    (data : List Release) (w : W) (fuel : Nat) :
    stringsIndex "https://api.github.com/repos/o/r" "?" = -1 ∧
    releasesURL "https://api.github.com/repos/o/r" = Run.panic "slice bounds out of range" ∧
    getReleases env e "https://api.github.com/repos/o/r" data w =
      Run.panic "slice bounds out of range" ∧
    gatherData (toyEnv (scriptedGets [repoObjectNoQuery] releasesOk) firstCallOnly)
        exporter0 fuel 0 = Run.panic "slice bounds out of range" :=
  ⟨by decide, by decide, rfl, rfl⟩

/-! ## gatherData: decode errors -/

theorem GetPRs.loop_congr (env env2 : Env W Fields Release PR) (gm : GitHubManager)
    (h : env2.pullRequestsList = env.pullRequestsList) :
    ∀ (fuel : Nat) (opts : PullRequestListOptions) (acc : List PR) (w : W),
      GetPRs.loop env2 gm fuel opts acc w = GetPRs.loop env gm fuel opts acc w := by
  intro fuel
  induction fuel with
  | zero => intro opts acc w; rfl
  | succ fuel ih =>
    intro opts acc w
    simp only [GetPRs.loop, h, ih]

theorem gatherStep_congr [Inhabited Fields] (env env2 : Env W Fields Release PR)
    (e : Exporter) (fuel : Nat)
    (h1 : env2.asyncHTTPGets = env.asyncHTTPGets)
    (h2 : env2.pullRequestsList = env.pullRequestsList)
    (h3 : ∀ b, (env2.unmarshalData b).1 = (env.unmarshalData b).1)
    (h4 : ∀ b d, (env2.unmarshalDatum b d).1 = (env.unmarshalDatum b d).1)
    (h5 : ∀ b d, (env2.unmarshalReleases b d).1 = (env.unmarshalReleases b d).1)
    (st : GatherState W Fields Release PR) (r : Response) :
    gatherStep env2 e fuel st r = gatherStep env e fuel st r := by
  have hrel : ∀ url data w, getReleases env2 e url data w = getReleases env e url data w := by
    intro url data w
    simp only [getReleases, h1, h5]
  have hprs : ∀ url w, getPRs env2 e url fuel w = getPRs env e url fuel w := by
    intro url w
    simp only [getPRs, GetPRs, GetPRs.loop_congr env env2 _ h2]
  simp only [gatherStep, hrel, hprs, h3, h4]

theorem gatherLoop_congr [Inhabited Fields] (env env2 : Env W Fields Release PR)
    (e : Exporter) (fuel : Nat)
    (h1 : env2.asyncHTTPGets = env.asyncHTTPGets)
    (h2 : env2.pullRequestsList = env.pullRequestsList)
    (h3 : ∀ b, (env2.unmarshalData b).1 = (env.unmarshalData b).1)
    (h4 : ∀ b d, (env2.unmarshalDatum b d).1 = (env.unmarshalDatum b d).1)
    (h5 : ∀ b d, (env2.unmarshalReleases b d).1 = (env.unmarshalReleases b d).1) :
    ∀ (resps : List Response) (st : GatherState W Fields Release PR),
      gatherLoop env2 e fuel resps st = gatherLoop env e fuel resps st := by
  intro resps
  induction resps with
  | nil => intro st; rfl
  | cons r rest ih =>
    intro st
    simp only [gatherLoop, gatherStep_congr env env2 e fuel h1 h2 h3 h4 h5, ih]

/-- C9 (amended): after a primary fetch without transport error, `gatherData` never surfaces
a decode error. Whenever it returns its error is nil; its whole outcome is the same under
any decoder that leaves the same values in its destinations, whatever errors that decoder
reports; and when no response triggers a secondary fetch it does return, with a nil error. -/
theorem gatherData_drops_decode_errors [Inhabited Fields] (env : Env W Fields Release PR)
    (e : Exporter) (fuel : Nat) (w : W)
    (hok : (env.asyncHTTPGets e.TargetURLs e.APIToken w).1.2 = none) :
    (∀ out, gatherData env e fuel w = Run.ret out → out.err = none) ∧
    (∀ env2 : Env W Fields Release PR,
      env2.asyncHTTPGets = env.asyncHTTPGets →
      env2.pullRequestsList = env.pullRequestsList →
      (∀ b, (env2.unmarshalData b).1 = (env.unmarshalData b).1) →
      (∀ b d, (env2.unmarshalDatum b d).1 = (env.unmarshalDatum b d).1) →
      (∀ b d, (env2.unmarshalReleases b d).1 = (env.unmarshalReleases b d).1) →
      gatherData env2 e fuel w = gatherData env e fuel w) ∧
    ((∀ r ∈ (env.asyncHTTPGets e.TargetURLs e.APIToken w).1.1, isRepoObject r = false) →
      ∃ out, gatherData env e fuel w = Run.ret out ∧ out.err = none) := by
  refine ⟨?_, ?_, ?_⟩
  · intro out h
    rw [gatherData_of_ok env e fuel w hok] at h
    obtain ⟨st, _, h⟩ := Run.bind_eq_ret _ _ _ h
    injection h with h
    rw [← h]
  · intro env2 h1 h2 h3 h4 h5
    simp only [gatherData, h1, gatherLoop_congr env env2 e fuel h1 h2 h3 h4 h5]
  · intro hno
    rw [gatherData_of_ok env e fuel w hok]
    obtain ⟨st, hst, _⟩ := gatherLoop_no_repo env e fuel _
      { data := [], prs := [], world := (env.asyncHTTPGets e.TargetURLs e.APIToken w).2 } hno
    exact ⟨_, by rw [hst]; rfl, rfl⟩

/-- Witness for C9: a malformed object body and a malformed array body; both decoders report
an error, and `gatherData` returns one untouched Datum and a nil error. -/
theorem gatherData_drops_decode_errors_witness :
    (toyUnmarshalDatum brokenObject.body Datum.new).2 ≠ none ∧
    (toyUnmarshalData brokenArray.body).2 ≠ none ∧
    ∃ out,
      gatherData (toyEnv (scriptedGets [brokenObject, brokenArray] releasesOk) firstCallOnly)
        exporter0 0 0 = Run.ret out ∧ out.err = none :=
  have h := gatherData_drops_decode_errors
    (toyEnv (scriptedGets [brokenObject, brokenArray] releasesOk) firstCallOnly)
    exporter0 0 0 rfl
  ⟨by decide, by decide, _, rfl, h.1 _ rfl⟩

/-- C9 (counterexample): the primary fetch succeeds with a malformed object body and a
malformed array body; the decoder reports an error for each, yet `gatherData` returns a nil
error. -/
theorem gatherData_nil_error_on_malformed_body :
    ((toyEnv (scriptedGets [brokenObject, brokenArray] releasesOk)
        firstCallOnly).asyncHTTPGets exporter0.TargetURLs exporter0.APIToken 0).1 =
      ([brokenObject, brokenArray], none) ∧
    isArray brokenObject.body = false ∧
    (toyUnmarshalDatum brokenObject.body Datum.new).2 =
      some (GoError.external "invalid character") ∧
    isArray brokenArray.body = true ∧
    (toyUnmarshalData brokenArray.body).2 =
      some (GoError.external "unexpected end of JSON input") ∧
    gatherData (toyEnv (scriptedGets [brokenObject, brokenArray] releasesOk) firstCallOnly)
        exporter0 0 0 =
      Run.ret { data := [some Datum.new], prs := [], err := none, world := 0 } :=
  ⟨rfl, by decide, by decide, by decide, by decide, by decide⟩

/-! ## gatherData: the pull-request sequence -/

/-- C10: after a primary fetch without error, the PullRequest sequence `gatherData` returns
is empty when no response is an object whose URL contains `/repos/`, and otherwise is exactly
the result of the `getPRs` call made for the last such response, whatever the sequence held
before: earlier results are overwritten. `getPRs` does not depend on the response URL, and a
failed `GetPRs` makes it return the empty sequence. -/
theorem gatherData_prs_from_last_repo_object [Inhabited Fields]
    (env : Env W Fields Release PR) (e : Exporter) (fuel : Nat) (w : W)
    (hok : (env.asyncHTTPGets e.TargetURLs e.APIToken w).1.2 = none) :
    ((∀ r ∈ (env.asyncHTTPGets e.TargetURLs e.APIToken w).1.1, isRepoObject r = false) →
      ∃ out, gatherData env e fuel w = Run.ret out ∧ out.prs = []) ∧
    (∀ (pre post : List Response) (r : Response) (stP : GatherState W Fields Release PR)
        (rel : List Release × W) (p : List PR × W),
      (env.asyncHTTPGets e.TargetURLs e.APIToken w).1.1 = pre ++ r :: post →
      isRepoObject r = true →
      (∀ x ∈ post, isRepoObject x = false) →
      gatherLoop env e fuel pre
        { data := [], prs := [], world := (env.asyncHTTPGets e.TargetURLs e.APIToken w).2 }
        = Run.ret stP →
      getReleases env e r.url [] stP.world = Run.ret rel →
      getPRs env e r.url fuel rel.2 = Run.ret p →
      ∃ out, gatherData env e fuel w = Run.ret out ∧ out.prs = p.1) ∧
    (∀ (u1 u2 : String) (w1 : W), getPRs env e u1 fuel w1 = getPRs env e u2 fuel w1) ∧
    (∀ (url : String) (w1 w2 : W) (p : List PR) (err : GoError),
      GetPRs env (NewGitHubManager "sky-uk" "gtvd-azman2-aws" e.APIToken) fuel w1
        = Run.ret ((p, some err), w2) →
      getPRs env e url fuel w1 = Run.ret ([], w2)) := by
  refine ⟨?_, ?_, ?_, ?_⟩
  · intro hno
    rw [gatherData_of_ok env e fuel w hok]
    obtain ⟨st, hst, hprs, _⟩ := gatherLoop_no_repo env e fuel _
      { data := [], prs := [], world := (env.asyncHTTPGets e.TargetURLs e.APIToken w).2 } hno
    exact ⟨_, by rw [hst]; rfl, hprs⟩
  · intro pre post r stP rel p hsplit hr hpost hpre hrel hp
    obtain ⟨ha, hc⟩ := (isRepoObject_true_iff r).1 hr
    obtain ⟨st, hst, hprs, _⟩ := gatherLoop_no_repo env e fuel post
      { data := stP.data ++
          [(env.unmarshalDatum r.body
            { fields := default, Releases := rel.1, PullRequests := [] }).1],
        prs := p.1, world := p.2 } hpost
    refine ⟨{ data := st.data, prs := st.prs, err := none, world := st.world }, ?_, hprs⟩
    rw [gatherData_of_ok env e fuel w hok, hsplit, gatherLoop_append, hpre]
    simp only [Run.bind_ret, gatherLoop]
    rw [gatherStep_repo env e fuel stP r ha hc, hrel]
    simp only [Run.bind_ret, hp, hst]
  · intro u1 u2 w1
    rfl
  · intro url w1 w2 p err h
    have hnil : p = [] := GetPRs.loop_error_nil env _ fuel _ _ _ _ _ _ h
    simp [getPRs, h, hnil]

/-- Witness for C10: two repository objects around an array. The fetch made for the first
one yields two pull requests, the one made for the last one fails; the returned sequence is
empty. -/
theorem gatherData_prs_from_last_repo_object_witness :
    gatherLoop (toyEnv (scriptedGets [repoObject, orgArray, repoObject] releasesOk)
        firstCallOnly) exporter0 5 [repoObject, orgArray]
        { data := [], prs := [], world := 0 } =
      Run.ret { data := [some { fields := "decoded", Releases := ["release"],
                                PullRequests := [] },
                         some Datum.new, some Datum.new],
                prs := [7, 8], world := 1 } ∧
    ∃ out,
      gatherData (toyEnv (scriptedGets [repoObject, orgArray, repoObject] releasesOk)
        firstCallOnly) exporter0 5 0 = Run.ret out ∧ out.prs = [] :=
  have h := gatherData_prs_from_last_repo_object
    (toyEnv (scriptedGets [repoObject, orgArray, repoObject] releasesOk) firstCallOnly)
    exporter0 5 0 rfl
  ⟨rfl, h.2.1 [repoObject, orgArray] [] repoObject
    { data := [some { fields := "decoded", Releases := ["release"], PullRequests := [] },
               some Datum.new, some Datum.new],
      prs := [7, 8], world := 1 }
    (["release"], 1) ([], 2) rfl (by decide) (by simp) rfl rfl rfl⟩

end Gathering

/-! ## getRates -/

section Rates

variable {W F : Type} [Zero F]

theorem getRates_transport_error (env : RateEnv W F) (e : Exporter) (w : W) (err : GoError)
    (h : (env.getHTTPResponse (rateLimitURL env e) e.APIToken w).1 = .error err) :
    getRates env e w =
      ((some RateLimits.zero, some err),
        (env.getHTTPResponse (rateLimitURL env e) e.APIToken w).2) := by
  simp [getRates, h]

theorem getRates_404 (env : RateEnv W F) (e : Exporter) (w : W) (resp : HTTPResponse)
    (h : (env.getHTTPResponse (rateLimitURL env e) e.APIToken w).1 = .ok resp)
    (h404 : resp.StatusCode = 404) :
    getRates env e w =
      ((some RateLimits.zero,
        some (GoError.errorString "Rate Limiting not enabled in GitHub API")),
        (env.getHTTPResponse (rateLimitURL env e) e.APIToken w).2) := by
  simp [getRates, h, h404]

theorem getRates_limit_error (env : RateEnv W F) (e : Exporter) (w : W) (resp : HTTPResponse)
    (k : String)
    (h : (env.getHTTPResponse (rateLimitURL env e) e.APIToken w).1 = .ok resp)
    (h404 : resp.StatusCode ≠ 404)
    (hl : env.parseFloat64 (resp.Header "X-RateLimit-Limit") = .error k) :
    getRates env e w =
      ((some RateLimits.zero,
        some (GoError.numError "ParseFloat" (resp.Header "X-RateLimit-Limit") k)),
        (env.getHTTPResponse (rateLimitURL env e) e.APIToken w).2) := by
  simp [getRates, h, h404, strconvParseFloat, hl]

theorem getRates_remaining_error (env : RateEnv W F) (e : Exporter) (w : W)
    (resp : HTTPResponse) (l : F) (k : String)
    (h : (env.getHTTPResponse (rateLimitURL env e) e.APIToken w).1 = .ok resp)
    (h404 : resp.StatusCode ≠ 404)
    (hl : env.parseFloat64 (resp.Header "X-RateLimit-Limit") = .ok l)
    (hr : env.parseFloat64 (resp.Header "X-RateLimit-Remaining") = .error k) :
    getRates env e w =
      ((some RateLimits.zero,
        some (GoError.numError "ParseFloat" (resp.Header "X-RateLimit-Remaining") k)),
        (env.getHTTPResponse (rateLimitURL env e) e.APIToken w).2) := by
  simp [getRates, h, h404, strconvParseFloat, hl, hr]

theorem getRates_reset_error (env : RateEnv W F) (e : Exporter) (w : W)
    (resp : HTTPResponse) (l r : F) (k : String)
    (h : (env.getHTTPResponse (rateLimitURL env e) e.APIToken w).1 = .ok resp)
    (h404 : resp.StatusCode ≠ 404)
    (hl : env.parseFloat64 (resp.Header "X-RateLimit-Limit") = .ok l)
    (hr : env.parseFloat64 (resp.Header "X-RateLimit-Remaining") = .ok r)
    (ht : env.parseFloat64 (resp.Header "X-RateLimit-Reset") = .error k) :
    getRates env e w =
      ((some RateLimits.zero,
        some (GoError.numError "ParseFloat" (resp.Header "X-RateLimit-Reset") k)),
        (env.getHTTPResponse (rateLimitURL env e) e.APIToken w).2) := by
  simp [getRates, h, h404, strconvParseFloat, hl, hr, ht]

theorem getRates_ok (env : RateEnv W F) (e : Exporter) (w : W)
    (resp : HTTPResponse) (l r t : F)
    (h : (env.getHTTPResponse (rateLimitURL env e) e.APIToken w).1 = .ok resp)
    (h404 : resp.StatusCode ≠ 404)
    (hl : env.parseFloat64 (resp.Header "X-RateLimit-Limit") = .ok l)
    (hr : env.parseFloat64 (resp.Header "X-RateLimit-Remaining") = .ok r)
    (ht : env.parseFloat64 (resp.Header "X-RateLimit-Reset") = .ok t) :
    getRates env e w =
      ((some { Limit := l, Remaining := r, Reset := t }, none),
        (env.getHTTPResponse (rateLimitURL env e) e.APIToken w).2) := by
  simp [getRates, h, h404, strconvParseFloat, hl, hr, ht]

/-- Every run of `getRates` takes one of six paths: transport failure, status 404, a parse
failure of one of the three headers in turn, or success. -/
theorem getRates_cases (env : RateEnv W F) (e : Exporter) (w : W) :
    ((getRates env e w).1.1 = some RateLimits.zero ∧ ∃ err, (getRates env e w).1.2 = some err) ∨
    (∃ resp l r t,
      (env.getHTTPResponse (rateLimitURL env e) e.APIToken w).1 = .ok resp ∧
      resp.StatusCode ≠ 404 ∧
      env.parseFloat64 (resp.Header "X-RateLimit-Limit") = .ok l ∧
      env.parseFloat64 (resp.Header "X-RateLimit-Remaining") = .ok r ∧
      env.parseFloat64 (resp.Header "X-RateLimit-Reset") = .ok t ∧
      (getRates env e w).1 = (some { Limit := l, Remaining := r, Reset := t }, none)) := by
  cases h : (env.getHTTPResponse (rateLimitURL env e) e.APIToken w).1 with
  | error err => left; rw [getRates_transport_error env e w err h]; exact ⟨rfl, err, rfl⟩
  | ok resp =>
    by_cases h404 : resp.StatusCode = 404
    · left; rw [getRates_404 env e w resp h h404]; exact ⟨rfl, _, rfl⟩
    · cases hl : env.parseFloat64 (resp.Header "X-RateLimit-Limit") with
      | error k => left; rw [getRates_limit_error env e w resp k h h404 hl]; exact ⟨rfl, _, rfl⟩
      | ok l =>
        cases hr : env.parseFloat64 (resp.Header "X-RateLimit-Remaining") with
        | error k =>
          left; rw [getRates_remaining_error env e w resp l k h h404 hl hr]; exact ⟨rfl, _, rfl⟩
        | ok r =>
          cases ht : env.parseFloat64 (resp.Header "X-RateLimit-Reset") with
          | error k =>
            left; rw [getRates_reset_error env e w resp l r k h h404 hl hr ht]
            exact ⟨rfl, _, rfl⟩
          | ok t =>
            right
            refine ⟨resp, l, r, t, rfl, h404, hl, hr, ht, ?_⟩
            rw [getRates_ok env e w resp l r t h h404 hl hr ht]

/-- C7: for every successful transport call whose response has status 404, whatever the
headers, `getRates` returns the error "Rate Limiting not enabled in GitHub API"; the result is
the same under every header parser, so no header is parsed. That error differs from the one
returned for a status-200 response whose `X-RateLimit-Limit` header does not parse, which is
the `ParseFloat` numeric-parse error of that header value. -/
theorem getRates_404_distinct_from_parse_error (env : RateEnv W F) (e : Exporter) (w : W)
    (resp : HTTPResponse)
    (hget : (env.getHTTPResponse (rateLimitURL env e) e.APIToken w).1 = .ok resp)
    (h404 : resp.StatusCode = 404) :
    (getRates env e w).1.2 =
      some (GoError.errorString "Rate Limiting not enabled in GitHub API") ∧
    (∀ pf : String → Except String F,
      getRates { env with parseFloat64 := pf } e w = getRates env e w) ∧
    (∀ (env2 : RateEnv W F) (e2 : Exporter) (w2 : W) (resp2 : HTTPResponse) (k : String),
      (env2.getHTTPResponse (rateLimitURL env2 e2) e2.APIToken w2).1 = .ok resp2 →
      resp2.StatusCode = 200 →
      env2.parseFloat64 (resp2.Header "X-RateLimit-Limit") = .error k →
      (getRates env2 e2 w2).1.2 =
        some (GoError.numError "ParseFloat" (resp2.Header "X-RateLimit-Limit") k) ∧
      (getRates env2 e2 w2).1.2 ≠ (getRates env e w).1.2) := by
  have h1 := getRates_404 env e w resp hget h404
  refine ⟨by rw [h1], ?_, ?_⟩
  · intro pf
    have h2 := getRates_404 { env with parseFloat64 := pf } e w resp hget h404
    rw [h1, h2]
    rfl
  · intro env2 e2 w2 resp2 k hget2 h200 hl
    have hne : resp2.StatusCode ≠ 404 := by rw [h200]; decide
    have h3 := getRates_limit_error env2 e2 w2 resp2 k hget2 hne hl
    rw [h3, h1]
    exact ⟨rfl, by simp⟩

/-- Witness for C7: a 404 answer carrying well-formed headers, against a 200 answer whose
limit header is `abc`. -/
theorem getRates_404_distinct_from_parse_error_witness :
    (getRates (toyRateEnv 404 "5000" "4999" "1700000000") exporter0 0).1.2 =
      some (GoError.errorString "Rate Limiting not enabled in GitHub API") ∧
    (getRates (toyRateEnv 200 "abc" "4999" "1700000000") exporter0 0).1.2 =
      some (GoError.numError "ParseFloat" "abc" "invalid syntax") ∧
    (getRates (toyRateEnv 200 "abc" "4999" "1700000000") exporter0 0).1.2 ≠
      (getRates (toyRateEnv 404 "5000" "4999" "1700000000") exporter0 0).1.2 :=
  have h := getRates_404_distinct_from_parse_error
    (toyRateEnv 404 "5000" "4999" "1700000000") exporter0 0
    { StatusCode := 404,
      Header := fun k =>
        if k = "X-RateLimit-Limit" then "5000"
        else if k = "X-RateLimit-Remaining" then "4999"
        else if k = "X-RateLimit-Reset" then "1700000000"
        else "" } rfl rfl
  have h2 := h.2.2 (toyRateEnv 200 "abc" "4999" "1700000000") exporter0 0
    { StatusCode := 200,
      Header := fun k =>
        if k = "X-RateLimit-Limit" then "abc"
        else if k = "X-RateLimit-Remaining" then "4999"
        else if k = "X-RateLimit-Reset" then "1700000000"
        else "" } "invalid syntax" rfl rfl rfl
  ⟨h.1, h2.1, h2.2⟩

/-- C8: the `RateLimits` pointer returned by `getRates` is never nil; whenever the error is
non-nil the value is the zero value in all three fields, and each failure (transport, status
404, or a parse failure of `X-RateLimit-Limit`, `X-RateLimit-Remaining`, `X-RateLimit-Reset`,
the later ones also after earlier headers parsed) does return an error; when the error is nil
the three fields are the parsed values of those three headers, in that order. -/
theorem getRates_error_returns_zero_value (env : RateEnv W F) (e : Exporter) (w : W) :
    (getRates env e w).1.1 ≠ none ∧
    (∀ err, (getRates env e w).1.2 = some err →
      (getRates env e w).1.1 = some RateLimits.zero) ∧
    ((getRates env e w).1.2 = none →
      ∃ resp l r t,
        (env.getHTTPResponse (rateLimitURL env e) e.APIToken w).1 = .ok resp ∧
        env.parseFloat64 (resp.Header "X-RateLimit-Limit") = .ok l ∧
        env.parseFloat64 (resp.Header "X-RateLimit-Remaining") = .ok r ∧
        env.parseFloat64 (resp.Header "X-RateLimit-Reset") = .ok t ∧
        (getRates env e w).1.1 = some { Limit := l, Remaining := r, Reset := t }) ∧
    (∀ err, (env.getHTTPResponse (rateLimitURL env e) e.APIToken w).1 = .error err →
      (getRates env e w).1 = (some RateLimits.zero, some err)) ∧
    (∀ resp, (env.getHTTPResponse (rateLimitURL env e) e.APIToken w).1 = .ok resp →
      (resp.StatusCode = 404 →
        (getRates env e w).1 = (some RateLimits.zero,
          some (GoError.errorString "Rate Limiting not enabled in GitHub API"))) ∧
      (resp.StatusCode ≠ 404 →
        (∀ k, env.parseFloat64 (resp.Header "X-RateLimit-Limit") = .error k →
          (getRates env e w).1 = (some RateLimits.zero,
            some (GoError.numError "ParseFloat" (resp.Header "X-RateLimit-Limit") k))) ∧
        (∀ l k, env.parseFloat64 (resp.Header "X-RateLimit-Limit") = .ok l →
          env.parseFloat64 (resp.Header "X-RateLimit-Remaining") = .error k →
          (getRates env e w).1 = (some RateLimits.zero,
            some (GoError.numError "ParseFloat" (resp.Header "X-RateLimit-Remaining") k))) ∧
        (∀ l r k, env.parseFloat64 (resp.Header "X-RateLimit-Limit") = .ok l →
          env.parseFloat64 (resp.Header "X-RateLimit-Remaining") = .ok r →
          env.parseFloat64 (resp.Header "X-RateLimit-Reset") = .error k →
          (getRates env e w).1 = (some RateLimits.zero,
            some (GoError.numError "ParseFloat" (resp.Header "X-RateLimit-Reset") k))))) := by
  refine ⟨?_, ?_, ?_, ?_, ?_⟩
  · rcases getRates_cases env e w with ⟨h, _⟩ | ⟨resp, l, r, t, _, _, _, _, _, h⟩
    · rw [h]; simp
    · rw [h]; simp
  · intro err herr
    rcases getRates_cases env e w with ⟨h, _⟩ | ⟨resp, l, r, t, _, _, _, _, _, h⟩
    · exact h
    · rw [h] at herr; simp at herr
  · intro hnone
    rcases getRates_cases env e w with ⟨_, err, h⟩ | ⟨resp, l, r, t, hget, _, hl, hr, ht, h⟩
    · rw [h] at hnone; simp at hnone
    · exact ⟨resp, l, r, t, hget, hl, hr, ht, by rw [h]⟩
  · intro err h
    rw [getRates_transport_error env e w err h]
  · intro resp h
    refine ⟨fun h404 => by rw [getRates_404 env e w resp h h404], fun h404 => ⟨?_, ?_, ?_⟩⟩
    · intro k hl
      rw [getRates_limit_error env e w resp k h h404 hl]
    · intro l k hl hr
      rw [getRates_remaining_error env e w resp l k h h404 hl hr]
    · intro l r k hl hr ht
      rw [getRates_reset_error env e w resp l r k h h404 hl hr ht]

/-- Witness for C8: an unreachable endpoint, a reset header that fails after two headers
parsed, and a fully parsed answer. -/
theorem getRates_error_returns_zero_value_witness :
    (getRates unreachableRateEnv exporter0 0).1 =
      (some RateLimits.zero, some (GoError.external "no route to host")) ∧
    (getRates (toyRateEnv 200 "5000" "4999" "soon") exporter0 0).1 =
      (some RateLimits.zero, some (GoError.numError "ParseFloat" "soon" "invalid syntax")) ∧
    (getRates (toyRateEnv 200 "5000" "4999" "1700000000") exporter0 0).1 =
      (some { Limit := 5000, Remaining := 4999, Reset := 1700000000 }, none) :=
  have h1 := getRates_error_returns_zero_value unreachableRateEnv exporter0 0
  have h2 := getRates_error_returns_zero_value (toyRateEnv 200 "5000" "4999" "soon") exporter0 0
  ⟨h1.2.2.2.1 (GoError.external "no route to host") rfl,
   ((h2.2.2.2.2 _ rfl).2 (by decide)).2.2 5000 4999 "invalid syntax" rfl rfl rfl,
   rfl⟩

end Rates

end Gather
